import Mathlib

/-!
Verification of the MTFS decentralized-exchange engine against its
specification.  The TypeScript chaincode is shallowly embedded: JavaScript
numbers are modelled as real numbers (`ℝ`) in the two-asset pool, where
`Math.sqrt` occurs, and as rationals (`ℚ`) in the basket engine and the
risk predicates; the Fabric key-value store is explicit state; operations
that can `throw` return `Except String`; cross-chaincode token transfers
are recorded as emitted `Transfer` events.  A stored value that is absent
from the store is modelled as `none`: a missing key yields an empty
buffer, `JSON.parse` of the empty string raises, and the embedding renders
that as `Except.error jsonParseError`.
-/

namespace MTFS

namespace LP

/-- Mirrors the `Reserve` interface of `LPContract.ts`. -/
structure Reserve where
  tokenA : ℝ
  tokenB : ℝ

/-- Mirrors the `UserContribution` interface of `LPContract.ts`. -/
structure UserContribution where
  userId : String
  contributionA : ℝ
  contributionB : ℝ
  lpTokens : ℝ

/-- Mirrors the `LiquidityProvider` records served by
`LiquidityProviderContract.GetAllLiquidityProviders`. -/
structure LiquidityProvider where
  user : String
  amount : ℝ
  earnedFees : ℝ

/-- One `transfer` invocation sent to a token chaincode. -/
structure Transfer where
  token : String
  src : String
  dst : String
  amount : ℝ

/-- Message of the JavaScript `SyntaxError` raised by `JSON.parse("")`,
which is what parsing the value of a missing store key produces. -/
def jsonParseError : String := "Unexpected end of JSON input"

/-- Error text of the oracle-price ratio check in `AddLiquidity`. -/
def ratioError : String := "Provided amounts do not match the current price ratio."

/-- Error text of the LP-share check in `RemoveLiquidity`. -/
def insufficientError : String := "Insufficient LP tokens."

def reserveWalletKey : String := "ReserveWallet"

/-- Mirrors `LiquidityPool.FEE_RATE` (0.3 %). -/
def FEE_RATE : ℝ := 0.003

/-- State of the pool chaincode plus the provider registry it reaches over
`invokeChaincode`.  `positions u = none` models an absent
`UserContribution:u` key; `positions u = some none` a stored JSON `null`
(which `putState` never writes, but which the code tests for). -/
structure PoolState where
  reserve : Option Reserve
  positions : String → Option (Option UserContribution)
  providers : List LiquidityProvider

/-- Mirrors `LiquidityPool.Init`: unconditionally stores zero reserves,
with no already-initialized check. -/
def Init (s : PoolState) : PoolState :=
  { s with reserve := some ⟨0, 0⟩ }

/-- Sum of the registry amounts, as the first loop of `distributeFees`
computes it. -/
noncomputable def totalLiquidity (ps : List LiquidityProvider) : ℝ :=
  ps.foldl (fun t p => t + p.amount) 0

/-- Credits issued by the second loop of `distributeFees`: one
`UpdateEarnedFees` invocation per provider. -/
noncomputable def feeCredits (fee : ℝ) (ps : List LiquidityProvider) : List (String × ℝ) :=
  ps.map fun p => (p.user, p.amount / totalLiquidity ps * fee)

/-- Effect of `distributeFees` on the provider registry. -/
noncomputable def distributeFees (fee : ℝ) (ps : List LiquidityProvider) : List LiquidityProvider :=
  ps.map fun p => { p with earnedFees := p.earnedFees + p.amount / totalLiquidity ps * fee }

/-- Mirrors `LiquidityPool.AddLiquidity`.  `priceA`, `priceB` are the oracle
answers for the two tokens.  The two user-to-pool token transfers precede
the reserve read in the source and do not touch the stored `Reserve`
record, so the mint is computed from the pre-add reserves. -/
noncomputable def AddLiquidity (priceA priceB : ℝ) (s : PoolState) (userId : String)
    (amountA amountB : ℝ) : Except String (PoolState × List Transfer × Bool) :=
  if |amountA * priceA - amountB * priceB| > 0.01 then
    .error ratioError
  else
    match s.reserve with
    | none => .error jsonParseError
    | some totalReserve =>
      let lpTokensToMint : ℝ :=
        if totalReserve.tokenA = 0 ∨ totalReserve.tokenB = 0 then
          Real.sqrt (amountA * amountB)
        else
          min (amountA / totalReserve.tokenA) (amountB / totalReserve.tokenB)
      let newReserve : Reserve :=
        ⟨totalReserve.tokenA + amountA, totalReserve.tokenB + amountB⟩
      match s.positions userId with
      | none => .error jsonParseError
      | some stored =>
        let uc : UserContribution :=
          match stored with
          | none => ⟨userId, amountA, amountB, lpTokensToMint⟩
          | some prev =>
            ⟨prev.userId, prev.contributionA + amountA, prev.contributionB + amountB,
              prev.lpTokens + lpTokensToMint⟩
        .ok ({ s with reserve := some newReserve,
                      positions := fun k => if k = userId then some (some uc) else s.positions k },
             [⟨"tokenA", userId, reserveWalletKey, amountA⟩,
              ⟨"tokenB", userId, reserveWalletKey, amountB⟩],
             true)

/-- Input-side reserve selected by `Swap`s branch on `inputToken`. -/
noncomputable def inputReserve (r : Reserve) (inputToken : String) : ℝ :=
  if inputToken = "tokenA" then r.tokenA else r.tokenB

/-- Output-side reserve selected by `Swap`s branch on `inputToken`. -/
noncomputable def outputReserve (r : Reserve) (inputToken : String) : ℝ :=
  if inputToken = "tokenA" then r.tokenB else r.tokenA

/-- Token contract debited from the user by `Swap`. -/
def inputTokenName (inputToken : String) : String :=
  if inputToken = "tokenA" then "tokenA" else "tokenB"

/-- Token contract credited to the user by `Swap`. -/
def outputTokenName (inputToken : String) : String :=
  if inputToken = "tokenA" then "tokenB" else "tokenA"

/-- Raw (pre-fee) swap output: `otherReserve - K / newInputReserve`. -/
noncomputable def rawOutput (r : Reserve) (inputToken : String) (amountIn : ℝ) : ℝ :=
  outputReserve r inputToken - r.tokenA * r.tokenB / (inputReserve r inputToken + amountIn)

/-- Reserve record `Swap` stores: the input side grows by `amountIn`, the
output side shrinks by the raw (pre-fee) output. -/
noncomputable def updatedReserve (r : Reserve) (inputToken : String) (amountIn : ℝ) : Reserve :=
  if inputToken = "tokenA" then
    ⟨r.tokenA + amountIn, r.tokenB - rawOutput r inputToken amountIn⟩
  else
    ⟨r.tokenA - rawOutput r inputToken amountIn, r.tokenB + amountIn⟩

/-- Mirrors `LiquidityPool.Swap`.  Note the source decrements the output
reserve by the raw output before the fee is deducted from the returned
amount; the fee is routed to `distributeFees`. -/
noncomputable def Swap (s : PoolState) (userId inputToken : String)
    (amountIn : ℝ) : Except String (PoolState × List Transfer × ℝ) :=
  match s.reserve with
  | none => .error jsonParseError
  | some reserve =>
    if inputToken = "tokenA" then
      let invariant := reserve.tokenA * reserve.tokenB
      let newA := reserve.tokenA + amountIn
      let rawOut := reserve.tokenB - invariant / newA
      let newB := reserve.tokenB - rawOut
      let fee := rawOut * FEE_RATE
      let amountOut := rawOut - fee
      .ok ({ s with reserve := some ⟨newA, newB⟩,
                    providers := distributeFees fee s.providers },
           [⟨"tokenA", userId, reserveWalletKey, amountIn⟩,
            ⟨"tokenB", reserveWalletKey, userId, amountOut⟩],
           amountOut)
    else
      let invariant := reserve.tokenA * reserve.tokenB
      let newB := reserve.tokenB + amountIn
      let rawOut := reserve.tokenA - invariant / newB
      let newA := reserve.tokenA - rawOut
      let fee := rawOut * FEE_RATE
      let amountOut := rawOut - fee
      .ok ({ s with reserve := some ⟨newA, newB⟩,
                    providers := distributeFees fee s.providers },
           [⟨"tokenB", userId, reserveWalletKey, amountIn⟩,
            ⟨"tokenA", reserveWalletKey, userId, amountOut⟩],
           amountOut)

/-- Mirrors `LiquidityPool.RemoveLiquidity`.  There is no earned-fee payout
anywhere in this function: the provider registry is left untouched. -/
noncomputable def RemoveLiquidity (s : PoolState) (userId : String)
    (lpAmount : ℝ) : Except String (PoolState × List Transfer × Bool) :=
  match s.reserve with
  | none => .error jsonParseError
  | some totalReserve =>
    match s.positions userId with
    | none => .error jsonParseError
    | some stored =>
      match stored with
      | none => .error insufficientError
      | some uc =>
        if uc.lpTokens < lpAmount then
          .error insufficientError
        else
          let proportion := lpAmount / uc.lpTokens
          let amountA := uc.contributionA * proportion
          let amountB := uc.contributionB * proportion
          let feeA := amountA * 0.003
          let feeB := amountB * 0.003
          let newReserve : Reserve :=
            ⟨totalReserve.tokenA - amountA, totalReserve.tokenB - amountB⟩
          let uc2 : UserContribution :=
            ⟨uc.userId, uc.contributionA - amountA, uc.contributionB - amountB,
              uc.lpTokens - lpAmount⟩
          .ok ({ s with reserve := some newReserve,
                        positions := fun k => if k = userId then some (some uc2) else s.positions k },
               [⟨"tokenA", reserveWalletKey, userId, amountA - feeA⟩,
                ⟨"tokenB", reserveWalletKey, userId, amountB - feeB⟩],
               true)

end LP

namespace BasketEngine

/-- Mirrors the `Basket` record (`basket.ts`). -/
structure Basket where
  ID : String
  TokenAmount : ℚ
  Tokens : List String
  Reserves : List ℚ
  Buffers : List ℚ
  Weights : List ℚ
  Prices : List ℚ

/-- One `Transfer` invocation the basket contract sends to the `alpha`
token chaincode. -/
structure BTransfer where
  src : String
  dst : String
  amount : ℚ

def reserveWallet : String := "reserveWallet"

/-- Mirrors `Array.prototype.indexOf`: the index of the first occurrence,
or `-1` when absent. -/
def jsIndexOf : List String → String → Int
  | [], _ => -1
  | x :: xs, a =>
    if x = a then 0
    else
      let r := jsIndexOf xs a
      if r = -1 then -1 else r + 1

/-- Inner loop of the invariant computation in `SwapCBDCs`: for fixed `i`
it multiplies the whole accumulator by `1 + R[i] / R[j]` for every
`j ≠ i`. -/
def dInner (R : List ℚ) (i : ℕ) (acc : ℚ) : ℚ :=
  (List.range R.length).foldl
    (fun d j => if i ≠ j then d * (1 + R.getD i 0 / R.getD j 0) else d) acc

/-- Generalized invariant exactly as the loops of `SwapCBDCs` compute it:
`D += R[i]` followed by the inner multiplication of the whole running
value, not of the current term alone. -/
def computeD (R : List ℚ) : ℚ :=
  (List.range R.length).foldl (fun d i => dInner R i (d + R.getD i 0)) 0

/-- Modelled from the spec: the generalized invariant the specification
states, `D = Σ_i reserve_i * Π_j≠i (1 + reserve_i / reserve_j)`, to be
compared with `computeD`, the one the source computes. -/
def specD (R : List ℚ) : ℚ :=
  ((List.range R.length).map fun i =>
    R.getD i 0 *
      (((List.range R.length).filter fun j => j ≠ i).map fun j =>
        1 + R.getD i 0 / R.getD j 0).prod).sum

def notSupportedError : String :=
  "One or both provided CBDCs are not supported in the basket."

/-- Mirrors `BasketContract.SwapCBDCs`: computes `D_before`, subtracts
`amount` at `fromIndex`, computes `D_after`, credits
`toAmount = D_before - D_after` at `toIndex` and transfers `amount` from
the user and `toAmount` to the user. -/
def SwapCBDCs (basket : Basket) (amount : ℚ) (fromCBDC toCBDC user : String) :
    Except String (Basket × List BTransfer × ℚ) :=
  let fromIndex := jsIndexOf basket.Tokens fromCBDC
  let toIndex := jsIndexOf basket.Tokens toCBDC
  if fromIndex = -1 ∨ toIndex = -1 then
    .error notSupportedError
  else
    let fi := fromIndex.toNat
    let ti := toIndex.toNat
    let D_before := computeD basket.Reserves
    let reserves1 := basket.Reserves.set fi (basket.Reserves.getD fi 0 - amount)
    let D_after := computeD reserves1
    let toAmount := D_before - D_after
    let reserves2 := reserves1.set ti (reserves1.getD ti 0 + toAmount)
    .ok ({ basket with Reserves := reserves2 },
         [⟨user, reserveWallet, amount⟩, ⟨reserveWallet, user, toAmount⟩],
         toAmount)

/-- Reserve vector after a basket swap at found indices `fi`, `ti`, as
`SwapCBDCs` builds it. -/
def swapReserves (R : List ℚ) (fi ti : ℕ) (amount : ℚ) : List ℚ :=
  let reserves1 := R.set fi (R.getD fi 0 - amount)
  reserves1.set ti (reserves1.getD ti 0 + (computeD R - computeD reserves1))

/-- Amount `SwapCBDCs` credits to the user: `D_before - D_after` for the
code's own invariant `computeD`. -/
def swapToAmount (R : List ℚ) (fi : ℕ) (amount : ℚ) : ℚ :=
  computeD R - computeD (R.set fi (R.getD fi 0 - amount))

end BasketEngine

namespace Risk

/-- Mirrors `RiskManagementContract.CheckAssetVolatility` (the full
implementation with oracle lookups).  The oracle is the pair of partial
maps `current`, `previous`; a `none` answer models an `invokeChaincode`
response with status other than 200.  The loop fetches both prices for
one asset, fails if either is missing, returns `false` at the first asset
whose change exceeds the threshold, and otherwise continues. -/
def CheckAssetVolatility (volatilityThreshold : ℚ)
    (current previous : String → Option ℚ) : List String → Except String Bool
  | [] => .ok true
  | t :: ts =>
    match current t, previous t with
    | some currentPrice, some previousPrice =>
      if |(currentPrice - previousPrice) / previousPrice| > volatilityThreshold then
        .ok false
      else
        CheckAssetVolatility volatilityThreshold current previous ts
    | _, _ => .error ("Failed to fetch prices for " ++ t)

end Risk

end MTFS

namespace MTFS

open LP

/-- A pool state that is already initialized with non-zero reserves, for
exercising `Init` on an existing pool. -/
def initializedPool : LP.PoolState :=
  { reserve := some ⟨5, 7⟩, positions := fun _ => none, providers := [] }

/-- Concrete pool with reserves (1000, 1000) and no providers, matching the
spec scenario `Initialize` then `AddLiquidity(user1, 1000, 1000)`. -/
def swapPool : LP.PoolState :=
  { reserve := some ⟨1000, 1000⟩, positions := fun _ => none, providers := [] }

/-- Raw output of the concrete swap of 100 on `swapPool`. -/
noncomputable def swapRaw : ℝ := 1000 - 1000 * 1000 / (1000 + 100)

/-- Amount the concrete swap returns: the raw output less the fee. -/
noncomputable def swapOut : ℝ := swapRaw - swapRaw * LP.FEE_RATE

/-- State after the concrete swap of 100 on `swapPool`. -/
noncomputable def swapPoolAfter : LP.PoolState :=
  { reserve := some ⟨1000 + 100, 1000 - swapRaw⟩,
    positions := swapPool.positions,
    providers := LP.distributeFees (swapRaw * LP.FEE_RATE) swapPool.providers }

/-- Transfers of the concrete swap of 100 on `swapPool`. -/
noncomputable def swapTs : List LP.Transfer :=
  [⟨"tokenA", "user1", LP.reserveWalletKey, 100⟩,
   ⟨"tokenB", LP.reserveWalletKey, "user1", swapOut⟩]

/-- Concrete empty pool in which `user1` already has a (zero) stored
position, so `AddLiquidity` can run to completion. -/
def emptyPool : LP.PoolState :=
  { reserve := some ⟨0, 0⟩,
    positions := fun _ => some (some ⟨"user1", 0, 0, 0⟩),
    providers := [] }

/-- State `AddLiquidity 1 1 emptyPool "user1" 1000 1000` commits. -/
noncomputable def emptyPoolAfter : LP.PoolState :=
  { reserve := some ⟨0 + 1000, 0 + 1000⟩,
    positions := fun k =>
      if k = "user1" then
        some (some ⟨"user1", 0 + 1000, 0 + 1000, 0 + Real.sqrt (1000 * 1000)⟩)
      else emptyPool.positions k,
    providers := [] }

/-- Concrete non-empty pool for the non-empty-branch witness. -/
def ratioPool : LP.PoolState :=
  { reserve := some ⟨200, 100⟩,
    positions := fun _ => some (some ⟨"user1", 200, 100, 50⟩),
    providers := [] }

/-- Concrete initialized pool in which `user1` has no stored position. -/
def freshUserPool : LP.PoolState :=
  { reserve := some ⟨3, 4⟩, positions := fun _ => none, providers := [] }

/-- Concrete pool whose provider registry owes `user1` a positive earned
fee balance of 5. -/
def feePool : LP.PoolState :=
  { reserve := some ⟨100, 100⟩,
    positions := fun _ => some (some ⟨"user1", 100, 100, 100⟩),
    providers := [⟨"user1", 100, 5⟩] }

/-- State after `RemoveLiquidity(user1, 40)` on `feePool`. -/
noncomputable def feePoolAfter : LP.PoolState :=
  { reserve := some ⟨100 - 100 * (40 / 100), 100 - 100 * (40 / 100)⟩,
    positions := fun k =>
      if k = "user1" then
        some (some ⟨"user1", 100 - 100 * (40 / 100), 100 - 100 * (40 / 100), 100 - 40⟩)
      else feePool.positions k,
    providers := [⟨"user1", 100, 5⟩] }

/-- Transfers of `RemoveLiquidity(user1, 40)` on `feePool`. -/
noncomputable def feeTs : List LP.Transfer :=
  [⟨"tokenA", LP.reserveWalletKey, "user1", 100 * (40 / 100) - 100 * (40 / 100) * 0.003⟩,
   ⟨"tokenB", LP.reserveWalletKey, "user1", 100 * (40 / 100) - 100 * (40 / 100) * 0.003⟩]

/-- Concrete provider registry with contributions 30 and 70. -/
def provs : List LP.LiquidityProvider := [⟨"u", 30, 0⟩, ⟨"v", 70, 0⟩]

/-- Concrete two-asset basket with reserves (500, 500), the spec's basket
scenario. -/
def cexBasket : BasketEngine.Basket :=
  { ID := "basket1", TokenAmount := 2, Tokens := ["alpha", "beta"],
    Reserves := [500, 500], Buffers := [0, 0], Weights := [1/2, 1/2],
    Prices := [1, 1] }

/-- Concrete oracle answers: both prices present for asset `a`, previous
price missing for asset `b`. -/
def curPrices : String → Option ℚ :=
  fun t => if t = "a" then some 2 else if t = "b" then some 3 else none

def prevPrices : String → Option ℚ :=
  fun t => if t = "a" then some 1 else none

/-- Concrete oracle answers that are available for every asset of
`["a", "b"]`. -/
def curAll : String → Option ℚ :=
  fun t => if t = "a" then some 21 else if t = "b" then some 10 else none

def prevAll : String → Option ℚ :=
  fun t => if t = "a" then some 20 else if t = "b" then some 10 else none

/-- Characterization of a successful `Swap` run, both input sides at once:
the stored reserve is `updatedReserve`, the returned amount is the raw
output less the fee, the fee goes to `distributeFees`, and the transfers
debit `amountIn` and credit the post-fee amount. -/
theorem swap_ok_char (s : LP.PoolState) (r : LP.Reserve) (userId inputToken : String)
    (amountIn : ℝ) (s2 : LP.PoolState) (ts : List LP.Transfer) (out : ℝ)
    (hres : s.reserve = some r)
    (hrun : LP.Swap s userId inputToken amountIn = .ok (s2, ts, out)) :
    s2 = { s with
            reserve := some (LP.updatedReserve r inputToken amountIn),
            providers := LP.distributeFees
              (LP.rawOutput r inputToken amountIn * LP.FEE_RATE) s.providers } ∧
    out = LP.rawOutput r inputToken amountIn -
        LP.rawOutput r inputToken amountIn * LP.FEE_RATE ∧
    ts = [⟨LP.inputTokenName inputToken, userId, LP.reserveWalletKey, amountIn⟩,
          ⟨LP.outputTokenName inputToken, LP.reserveWalletKey, userId, out⟩] := by
  by_cases h : inputToken = "tokenA"
  · subst h
    simp only [LP.Swap, hres, if_pos] at hrun
    simp only [Except.ok.injEq, Prod.mk.injEq] at hrun
    obtain ⟨h1, h2, h3⟩ := hrun
    subst h1 h2 h3
    simp only [LP.updatedReserve, LP.rawOutput, LP.inputReserve, LP.outputReserve,
      LP.inputTokenName, LP.outputTokenName, if_pos]
    exact ⟨trivial, trivial, trivial⟩
  · simp only [LP.Swap, hres] at hrun
    rw [if_neg h] at hrun
    simp only [Except.ok.injEq, Prod.mk.injEq] at hrun
    obtain ⟨h1, h2, h3⟩ := hrun
    subst h1 h2 h3
    simp only [LP.updatedReserve, LP.rawOutput, LP.inputReserve, LP.outputReserve,
      LP.inputTokenName, LP.outputTokenName, if_neg h]
    exact ⟨trivial, trivial, trivial⟩

/-- C4 counterexample: `Init` on a pool whose reserves already exist does
not fail with `AlreadyInitialized`; it overwrites the stored reserves with
zeros, so the reserves do not stay unchanged. -/
theorem init_counterexample :
    (LP.Init initializedPool).reserve = some ⟨0, 0⟩ ∧
      (LP.Init initializedPool).reserve ≠ initializedPool.reserve := by
  constructor
  · rfl
  · intro h
    simp only [LP.Init, initializedPool, Option.some.injEq, LP.Reserve.mk.injEq] at h
    norm_num at h

/-- C4 (amended): `Init` never fails; on every state, initialized or not,
it stores zero reserves, silently overwriting any existing ones, and leaves
the rest of the state unchanged. -/
theorem init_always_zeroes (s : LP.PoolState) :
    (LP.Init s).reserve = some ⟨0, 0⟩ ∧
      (LP.Init s).positions = s.positions ∧
      (LP.Init s).providers = s.providers :=
  ⟨rfl, rfl, rfl⟩

/-- Concrete evaluation of the spec scenario swap: 100 of tokenA into the
(1000, 1000) pool. -/
theorem swap_run_concrete :
    LP.Swap swapPool "user1" "tokenA" 100 = .ok (swapPoolAfter, swapTs, swapOut) := rfl

/-- C3: for a swap with positive reserves and positive input, the raw
output is `otherReserve - K / (inputReserve + amountIn)`, the stored
reserve pair obtained from the raw output has product exactly the
pre-trade `K = reserveA * reserveB`, and the returned amount is the raw
output times exactly `1 - 0.003`. -/
theorem swap_constant_product (s : LP.PoolState) (r : LP.Reserve)
    (userId inputToken : String) (amountIn : ℝ) (s2 : LP.PoolState)
    (ts : List LP.Transfer) (out : ℝ)
    (hres : s.reserve = some r)
    (hA : 0 < r.tokenA) (hB : 0 < r.tokenB) (hin : 0 < amountIn)
    (hrun : LP.Swap s userId inputToken amountIn = .ok (s2, ts, out)) :
    LP.rawOutput r inputToken amountIn =
      LP.outputReserve r inputToken -
        r.tokenA * r.tokenB / (LP.inputReserve r inputToken + amountIn) ∧
    out = LP.rawOutput r inputToken amountIn * (1 - LP.FEE_RATE) ∧
    s2.reserve = some (LP.updatedReserve r inputToken amountIn) ∧
    (LP.updatedReserve r inputToken amountIn).tokenA *
        (LP.updatedReserve r inputToken amountIn).tokenB = r.tokenA * r.tokenB := by
  obtain ⟨h1, h2, h3⟩ := swap_ok_char s r userId inputToken amountIn s2 ts out hres hrun
  refine ⟨rfl, by rw [h2]; ring, by rw [h1], ?_⟩
  by_cases h : inputToken = "tokenA"
  · subst h
    have hne : r.tokenA + amountIn ≠ 0 := by positivity
    simp only [LP.updatedReserve, LP.rawOutput, LP.inputReserve, LP.outputReserve, if_pos]
    field_simp
  · have hne : r.tokenB + amountIn ≠ 0 := by positivity
    simp only [LP.updatedReserve, LP.rawOutput, LP.inputReserve, LP.outputReserve, if_neg h]
    field_simp

/-- C3 witness: the concrete swap of 100 on the (1000, 1000) pool. -/
theorem swap_constant_product_witness :
    LP.rawOutput ⟨1000, 1000⟩ "tokenA" 100 =
      LP.outputReserve ⟨1000, 1000⟩ "tokenA" -
        (1000 : ℝ) * 1000 / (LP.inputReserve ⟨1000, 1000⟩ "tokenA" + 100) ∧
    swapOut = LP.rawOutput ⟨1000, 1000⟩ "tokenA" 100 * (1 - LP.FEE_RATE) ∧
    swapPoolAfter.reserve = some (LP.updatedReserve ⟨1000, 1000⟩ "tokenA" 100) ∧
    (LP.updatedReserve ⟨1000, 1000⟩ "tokenA" 100).tokenA *
        (LP.updatedReserve ⟨1000, 1000⟩ "tokenA" 100).tokenB = (1000 : ℝ) * 1000 :=
  swap_constant_product swapPool ⟨1000, 1000⟩ "user1" "tokenA" 100 swapPoolAfter
    swapTs swapOut rfl (by norm_num) (by norm_num) (by norm_num) swap_run_concrete

/-- C2 counterexample: for the concrete swap of 100 on the (1000, 1000)
pool the stored output reserve is `10000/11 = 1000 - raw`, which is not
`1000 - amountOut = 1000 - 997/11`: the reserve is decreased by the raw
pre-fee output, so the fee value is not retained in the stored reserves. -/
theorem swap_fee_counterexample :
    ((LP.Swap swapPool "user1" "tokenA" 100).map fun x => x.1.reserve) =
      .ok (some ⟨1100, 10000 / 11⟩) ∧
    ((LP.Swap swapPool "user1" "tokenA" 100).map fun x => x.2.2) = .ok (997 / 11) ∧
    (10000 / 11 : ℝ) ≠ 1000 - 997 / 11 := by
  refine ⟨?_, ?_, by norm_num⟩
  · rw [swap_run_concrete]
    simp only [Except.map]
    norm_num [swapPoolAfter, swapRaw]
  · rw [swap_run_concrete]
    simp only [Except.map]
    norm_num [swapOut, swapRaw, LP.FEE_RATE]

/-- C2 (amended): after a swap on positive reserves the stored output-side
reserve is decreased by the raw pre-fee output, while the caller receives
`raw * (1 - 0.003)`; the fee is handed to `distributeFees` and is not
retained in the stored reserves. -/
theorem swap_reserve_raw_decrement (s : LP.PoolState) (r : LP.Reserve)
    (userId inputToken : String) (amountIn : ℝ) (s2 : LP.PoolState)
    (ts : List LP.Transfer) (out : ℝ)
    (hres : s.reserve = some r) (hA : 0 < r.tokenA) (hB : 0 < r.tokenB)
    (hrun : LP.Swap s userId inputToken amountIn = .ok (s2, ts, out)) :
    s2.reserve = some (LP.updatedReserve r inputToken amountIn) ∧
    LP.outputReserve (LP.updatedReserve r inputToken amountIn) inputToken =
      LP.outputReserve r inputToken - LP.rawOutput r inputToken amountIn ∧
    out = LP.rawOutput r inputToken amountIn * (1 - LP.FEE_RATE) ∧
    s2.providers =
      LP.distributeFees (LP.rawOutput r inputToken amountIn * LP.FEE_RATE) s.providers ∧
    ts = [⟨LP.inputTokenName inputToken, userId, LP.reserveWalletKey, amountIn⟩,
          ⟨LP.outputTokenName inputToken, LP.reserveWalletKey, userId, out⟩] := by
  obtain ⟨h1, h2, h3⟩ := swap_ok_char s r userId inputToken amountIn s2 ts out hres hrun
  refine ⟨by rw [h1], ?_, by rw [h2]; ring, by rw [h1], h3⟩
  by_cases h : inputToken = "tokenA"
  · subst h
    simp only [LP.updatedReserve, LP.outputReserve, if_pos]
  · simp only [LP.updatedReserve, LP.outputReserve, if_neg h]

/-- C2 witness: the concrete swap of 100 on the (1000, 1000) pool. -/
theorem swap_reserve_raw_decrement_witness :
    swapPoolAfter.reserve = some (LP.updatedReserve ⟨1000, 1000⟩ "tokenA" 100) ∧
    LP.outputReserve (LP.updatedReserve ⟨1000, 1000⟩ "tokenA" 100) "tokenA" =
      LP.outputReserve ⟨1000, 1000⟩ "tokenA" - LP.rawOutput ⟨1000, 1000⟩ "tokenA" 100 ∧
    swapOut = LP.rawOutput ⟨1000, 1000⟩ "tokenA" 100 * (1 - LP.FEE_RATE) ∧
    swapPoolAfter.providers =
      LP.distributeFees (LP.rawOutput ⟨1000, 1000⟩ "tokenA" 100 * LP.FEE_RATE)
        swapPool.providers ∧
    swapTs = [⟨"tokenA", "user1", LP.reserveWalletKey, 100⟩,
              ⟨"tokenB", LP.reserveWalletKey, "user1", swapOut⟩] :=
  swap_reserve_raw_decrement swapPool ⟨1000, 1000⟩ "user1" "tokenA" 100 swapPoolAfter
    swapTs swapOut rfl (by norm_num) (by norm_num) swap_run_concrete

/-- Characterization of a successful `AddLiquidity` run on a stored
reserve and an existing stored position. -/
theorem addLiquidity_ok_char (priceA priceB amountA amountB : ℝ)
    (s s2 : LP.PoolState) (userId : String) (ts : List LP.Transfer) (b : Bool)
    (r : LP.Reserve) (uc : LP.UserContribution)
    (hres : s.reserve = some r)
    (hpos : s.positions userId = some (some uc))
    (hrun : LP.AddLiquidity priceA priceB s userId amountA amountB = .ok (s2, ts, b)) :
    s2 = { s with
            reserve := some ⟨r.tokenA + amountA, r.tokenB + amountB⟩,
            positions := fun k =>
              if k = userId then
                some (some ⟨uc.userId, uc.contributionA + amountA,
                  uc.contributionB + amountB,
                  uc.lpTokens +
                    (if r.tokenA = 0 ∨ r.tokenB = 0 then Real.sqrt (amountA * amountB)
                     else min (amountA / r.tokenA) (amountB / r.tokenB))⟩)
              else s.positions k } ∧
    b = true ∧
    ts = [⟨"tokenA", userId, LP.reserveWalletKey, amountA⟩,
          ⟨"tokenB", userId, LP.reserveWalletKey, amountB⟩] := by
  simp only [LP.AddLiquidity] at hrun
  split at hrun
  · exact Except.noConfusion hrun
  · split at hrun
    next heq => rw [hres] at heq; exact Option.noConfusion heq
    next r0 heq =>
      rw [hres] at heq
      injection heq with heq
      subst heq
      split at hrun
      next heq2 => rw [hpos] at heq2; exact Option.noConfusion heq2
      next stored heq2 =>
        rw [hpos] at heq2
        injection heq2 with heq2
        subst heq2
        simp only [Except.ok.injEq, Prod.mk.injEq] at hrun
        obtain ⟨h1, h2, h3⟩ := hrun
        subst h1 h2 h3
        exact ⟨rfl, rfl, rfl⟩

/-- C5: for a successful `AddLiquidity` by a user with an existing stored
position: on an empty pool (both reserves zero) the minted shares added to
the position are `sqrt(amountA * amountB)` and the stored reserves become
exactly the supplied amounts; on a pool with both reserves non-zero the
minted shares are `min(amountA/reserveA, amountB/reserveB)`. -/
theorem addLiquidity_mint (priceA priceB amountA amountB : ℝ)
    (s s2 : LP.PoolState) (userId : String) (ts : List LP.Transfer) (b : Bool)
    (uc : LP.UserContribution)
    (hpos : s.positions userId = some (some uc))
    (hrun : LP.AddLiquidity priceA priceB s userId amountA amountB = .ok (s2, ts, b)) :
    (s.reserve = some ⟨0, 0⟩ →
      s2.reserve = some ⟨amountA, amountB⟩ ∧
      s2.positions userId = some (some ⟨uc.userId, uc.contributionA + amountA,
        uc.contributionB + amountB, uc.lpTokens + Real.sqrt (amountA * amountB)⟩)) ∧
    (∀ r, s.reserve = some r → r.tokenA ≠ 0 → r.tokenB ≠ 0 →
      s2.positions userId = some (some ⟨uc.userId, uc.contributionA + amountA,
        uc.contributionB + amountB,
        uc.lpTokens + min (amountA / r.tokenA) (amountB / r.tokenB)⟩)) := by
  constructor
  · intro h0
    obtain ⟨h1, _, _⟩ :=
      addLiquidity_ok_char priceA priceB amountA amountB s s2 userId ts b ⟨0, 0⟩ uc
        h0 hpos hrun
    subst h1
    constructor
    · simp
    · simp
  · intro r hr hA hB
    obtain ⟨h1, _, _⟩ :=
      addLiquidity_ok_char priceA priceB amountA amountB s s2 userId ts b r uc
        hr hpos hrun
    subst h1
    simp [hA, hB]

/-- C5 witness: `AddLiquidity(user1, 1000, 1000)` on the empty pool at
oracle prices (1, 1) mints `sqrt(1000 * 1000)` shares and sets the
reserves to (1000, 1000). -/
theorem addLiquidity_mint_witness :
    (emptyPool.reserve = some ⟨0, 0⟩ →
      emptyPoolAfter.reserve = some ⟨1000, 1000⟩ ∧
      emptyPoolAfter.positions "user1" = some (some ⟨"user1", 0 + 1000, 0 + 1000,
        0 + Real.sqrt (1000 * 1000)⟩)) ∧
    (∀ r, emptyPool.reserve = some r → r.tokenA ≠ 0 → r.tokenB ≠ 0 →
      emptyPoolAfter.positions "user1" = some (some ⟨"user1", 0 + 1000, 0 + 1000,
        0 + min (1000 / r.tokenA) (1000 / r.tokenB)⟩)) := by
  have hrun : LP.AddLiquidity 1 1 emptyPool "user1" 1000 1000 =
      .ok (emptyPoolAfter,
        [⟨"tokenA", "user1", LP.reserveWalletKey, 1000⟩,
         ⟨"tokenB", "user1", LP.reserveWalletKey, 1000⟩], true) := by
    simp only [LP.AddLiquidity, emptyPool, emptyPoolAfter]
    rw [if_neg (by norm_num)]
    norm_num
  exact addLiquidity_mint 1 1 1000 1000 emptyPool emptyPoolAfter "user1"
    [⟨"tokenA", "user1", LP.reserveWalletKey, 1000⟩,
     ⟨"tokenB", "user1", LP.reserveWalletKey, 1000⟩] true
    ⟨"user1", 0, 0, 0⟩ rfl hrun

/-- C6 counterexample: on the empty pool with positive amounts (1, 2) and
oracle prices (1, 1), `AddLiquidity` fails with the ratio error, although
the claim says any positive amounts are accepted on an empty pool without
a ratio check; the check compares oracle values `amountA * priceA` and
`amountB * priceB`, not the reserve ratio. -/
theorem addLiquidity_empty_ratio_counterexample :
    LP.AddLiquidity 1 1 emptyPool "user1" 1 2 = .error LP.ratioError ∧
    emptyPool.reserve = some ⟨0, 0⟩ ∧ ((0 : ℝ) < 1 ∧ (0 : ℝ) < 2) := by
  refine ⟨?_, rfl, by norm_num⟩
  simp only [LP.AddLiquidity]
  rw [if_pos (by norm_num)]

/-- C6 (amended): `AddLiquidity` fails with the ratio error exactly when
the oracle-priced values of the two amounts differ by more than 0.01,
that is `|amountA * priceA - amountB * priceB| > 0.01`; the check uses
oracle prices, not the reserve ratio, and applies on empty and non-empty
pools alike. -/
theorem addLiquidity_ratio_iff (priceA priceB amountA amountB : ℝ)
    (s : LP.PoolState) (userId : String) :
    LP.AddLiquidity priceA priceB s userId amountA amountB = .error LP.ratioError ↔
      |amountA * priceA - amountB * priceB| > 0.01 := by
  constructor
  · intro h
    by_contra hc
    simp only [LP.AddLiquidity] at h
    rw [if_neg hc] at h
    split at h
    · simp only [Except.error.injEq] at h
      exact absurd h (by decide)
    · split at h
      · simp only [Except.error.injEq] at h
        exact absurd h (by decide)
      · exact Except.noConfusion h
  · intro h
    simp only [LP.AddLiquidity]
    rw [if_pos h]

/-- C10: for a user with no stored `UserContribution` record, both
`AddLiquidity` (when the ratio check passes) and `RemoveLiquidity` throw
the `JSON.parse` error of the empty stored value, so the fresh-position
branch is never reached, a first-time provider's `AddLiquidity` never
commits, and `RemoveLiquidity` fails before the insufficient-LP-shares
check (its error is the parse error, not the insufficient-shares one). -/
theorem first_time_provider_aborts (priceA priceB amountA amountB lpAmount : ℝ)
    (s : LP.PoolState) (userId : String) (r : LP.Reserve)
    (hnone : s.positions userId = none)
    (hres : s.reserve = some r)
    (hratio : |amountA * priceA - amountB * priceB| ≤ 0.01) :
    LP.AddLiquidity priceA priceB s userId amountA amountB = .error LP.jsonParseError ∧
    LP.RemoveLiquidity s userId lpAmount = .error LP.jsonParseError ∧
    LP.jsonParseError ≠ LP.insufficientError := by
  refine ⟨?_, ?_, by decide⟩
  · simp only [LP.AddLiquidity, hres, hnone]
    rw [if_neg (not_lt.mpr hratio)]
  · simp only [LP.RemoveLiquidity, hres, hnone]

/-- C10 witness: a user with no stored position on the initialized pool
(3, 4). -/
theorem first_time_provider_aborts_witness :
    LP.AddLiquidity 1 1 freshUserPool "user1" 2 2 = .error LP.jsonParseError ∧
    LP.RemoveLiquidity freshUserPool "user1" 1 = .error LP.jsonParseError ∧
    LP.jsonParseError ≠ LP.insufficientError :=
  first_time_provider_aborts 1 1 2 2 1 freshUserPool "user1" ⟨3, 4⟩ rfl rfl
    (by norm_num)

/-- Characterization of a successful `RemoveLiquidity` run on a stored
reserve and an existing stored position. -/
theorem removeLiquidity_ok_char (s s2 : LP.PoolState) (userId : String)
    (lpAmount : ℝ) (ts : List LP.Transfer) (b : Bool)
    (r : LP.Reserve) (uc : LP.UserContribution)
    (hres : s.reserve = some r)
    (hpos : s.positions userId = some (some uc))
    (hrun : LP.RemoveLiquidity s userId lpAmount = .ok (s2, ts, b)) :
    ¬uc.lpTokens < lpAmount ∧
    s2 = { s with
            reserve := some ⟨r.tokenA - uc.contributionA * (lpAmount / uc.lpTokens),
                             r.tokenB - uc.contributionB * (lpAmount / uc.lpTokens)⟩,
            positions := fun k =>
              if k = userId then
                some (some ⟨uc.userId,
                  uc.contributionA - uc.contributionA * (lpAmount / uc.lpTokens),
                  uc.contributionB - uc.contributionB * (lpAmount / uc.lpTokens),
                  uc.lpTokens - lpAmount⟩)
              else s.positions k } ∧
    b = true ∧
    ts = [⟨"tokenA", LP.reserveWalletKey, userId,
            uc.contributionA * (lpAmount / uc.lpTokens) -
              uc.contributionA * (lpAmount / uc.lpTokens) * 0.003⟩,
          ⟨"tokenB", LP.reserveWalletKey, userId,
            uc.contributionB * (lpAmount / uc.lpTokens) -
              uc.contributionB * (lpAmount / uc.lpTokens) * 0.003⟩] := by
  simp only [LP.RemoveLiquidity] at hrun
  split at hrun
  next heq => rw [hres] at heq; exact Option.noConfusion heq
  next r0 heq =>
    rw [hres] at heq
    injection heq with heq
    subst heq
    split at hrun
    next heq2 => rw [hpos] at heq2; exact Option.noConfusion heq2
    next stored heq2 =>
      rw [hpos] at heq2
      injection heq2 with heq2
      subst heq2
      split at hrun
      next heq3 => exact Option.noConfusion heq3
      next uc0 heq3 =>
        injection heq3 with heq3
        subst heq3
        split at hrun
        · exact Except.noConfusion hrun
        next hlt =>
          simp only [Except.ok.injEq, Prod.mk.injEq] at hrun
          obtain ⟨h1, h2, h3⟩ := hrun
          subst h1 h2 h3
          exact ⟨hlt, rfl, rfl, rfl⟩

/-- C7 counterexample: on a pool whose registry owes `user1` a positive
earned fee of 5, a successful `RemoveLiquidity(user1, 40)` leaves the
registry (and thus the earned-fee balance) unchanged at 5 instead of
paying it out and zeroing it, and issues only the two proportional token
transfers, no fee payout. -/
theorem removeLiquidity_fee_counterexample :
    ((LP.RemoveLiquidity feePool "user1" 40).map fun x => x.1.providers) =
      .ok [⟨"user1", 100, 5⟩] ∧
    ((LP.RemoveLiquidity feePool "user1" 40).map fun x => x.2.1) =
      .ok [⟨"tokenA", LP.reserveWalletKey, "user1", 40 - 40 * 0.003⟩,
           ⟨"tokenB", LP.reserveWalletKey, "user1", 40 - 40 * 0.003⟩] ∧
    (5 : ℝ) ≠ 0 := by
  refine ⟨?_, ?_, by norm_num⟩
  · simp only [LP.RemoveLiquidity, feePool]
    rw [if_neg (by norm_num)]
    simp [Except.map]
  · simp only [LP.RemoveLiquidity, feePool]
    rw [if_neg (by norm_num)]
    simp [Except.map]
    norm_num

/-- C7 (amended): a successful `RemoveLiquidity` withdraws
`contribution * (lpAmount / lpShares)` per asset less the fixed 0.3 %
withdrawal fee, and decrements reserves and the position accordingly, but
it does not pay out or zero any earned-fee balance: the provider registry
is left untouched. -/
theorem removeLiquidity_no_fee_payout (s s2 : LP.PoolState) (userId : String)
    (lpAmount : ℝ) (ts : List LP.Transfer) (b : Bool)
    (r : LP.Reserve) (uc : LP.UserContribution)
    (hres : s.reserve = some r)
    (hpos : s.positions userId = some (some uc))
    (hrun : LP.RemoveLiquidity s userId lpAmount = .ok (s2, ts, b)) :
    s2.providers = s.providers ∧
    ts = [⟨"tokenA", LP.reserveWalletKey, userId,
            uc.contributionA * (lpAmount / uc.lpTokens) -
              uc.contributionA * (lpAmount / uc.lpTokens) * 0.003⟩,
          ⟨"tokenB", LP.reserveWalletKey, userId,
            uc.contributionB * (lpAmount / uc.lpTokens) -
              uc.contributionB * (lpAmount / uc.lpTokens) * 0.003⟩] ∧
    s2.reserve = some ⟨r.tokenA - uc.contributionA * (lpAmount / uc.lpTokens),
                       r.tokenB - uc.contributionB * (lpAmount / uc.lpTokens)⟩ := by
  obtain ⟨_, h1, _, h3⟩ :=
    removeLiquidity_ok_char s s2 userId lpAmount ts b r uc hres hpos hrun
  subst h1
  exact ⟨rfl, h3, rfl⟩

/-- C7 witness: the concrete `RemoveLiquidity(user1, 40)` on `feePool`. -/
theorem removeLiquidity_no_fee_payout_witness :
    feePoolAfter.providers = feePool.providers ∧
    feeTs = [⟨"tokenA", LP.reserveWalletKey, "user1",
               (100 : ℝ) * (40 / 100) - 100 * (40 / 100) * 0.003⟩,
             ⟨"tokenB", LP.reserveWalletKey, "user1",
               (100 : ℝ) * (40 / 100) - 100 * (40 / 100) * 0.003⟩] ∧
    feePoolAfter.reserve = some ⟨100 - 100 * (40 / 100), 100 - 100 * (40 / 100)⟩ := by
  have hrun : LP.RemoveLiquidity feePool "user1" 40 = .ok (feePoolAfter, feeTs, true) := by
    simp only [LP.RemoveLiquidity, feePool, feePoolAfter, feeTs]
    rw [if_neg (by norm_num)]
  exact removeLiquidity_no_fee_payout feePool feePoolAfter "user1" 40 feeTs true
    ⟨100, 100⟩ ⟨"user1", 100, 100, 100⟩ rfl rfl hrun

/-- Auxiliary: the accumulator form of the first `distributeFees` loop. -/
theorem totalLiquidity_foldl_eq (ps : List LP.LiquidityProvider) :
    ∀ a : ℝ, ps.foldl (fun t p => t + p.amount) a =
      a + (ps.map LP.LiquidityProvider.amount).sum := by
  induction ps with
  | nil => intro a; simp
  | cons p ps ih =>
    intro a
    simp only [List.foldl_cons, List.map_cons, List.sum_cons, ih]
    ring

/-- Total contribution computed by `distributeFees` equals the sum of all
contributions. -/
theorem totalLiquidity_eq_sum (ps : List LP.LiquidityProvider) :
    LP.totalLiquidity ps = (ps.map LP.LiquidityProvider.amount).sum := by
  rw [LP.totalLiquidity, totalLiquidity_foldl_eq]
  ring

/-- C8: for a non-empty provider list, each provider is credited exactly
`fee * contribution / totalContribution` (the code computes
`(contribution / total) * fee`, equal in exact arithmetic), the total is
the sum of all contributions, the registry update adds the same credit to
each `EarnedFeeBalance`, and the outcome is deterministic: identical fee
and identical provider list give identical credits. -/
theorem distributeFees_pro_rata (fee : ℝ) (ps : List LP.LiquidityProvider)
    (hne : ps ≠ []) :
    LP.feeCredits fee ps =
      ps.map (fun p => (p.user, fee * p.amount / LP.totalLiquidity ps)) ∧
    LP.totalLiquidity ps = (ps.map LP.LiquidityProvider.amount).sum ∧
    LP.distributeFees fee ps =
      ps.map (fun p =>
        { p with earnedFees := p.earnedFees + fee * p.amount / LP.totalLiquidity ps }) ∧
    (∀ fee2 ps2, fee2 = fee → ps2 = ps →
      LP.feeCredits fee2 ps2 = LP.feeCredits fee ps) := by
  have hfg : ∀ p : LP.LiquidityProvider,
      p.amount / LP.totalLiquidity ps * fee = fee * p.amount / LP.totalLiquidity ps :=
    fun p => by ring
  refine ⟨?_, totalLiquidity_eq_sum ps, ?_, ?_⟩
  · simp only [LP.feeCredits, hfg]
  · simp only [LP.distributeFees, hfg]
  · intro fee2 ps2 h1 h2
    rw [h1, h2]

/-- C8 witness: fee 10 over contributions 30 and 70. -/
theorem distributeFees_pro_rata_witness :
    LP.feeCredits 10 provs =
      provs.map (fun p => (p.user, 10 * p.amount / LP.totalLiquidity provs)) ∧
    LP.totalLiquidity provs = (provs.map LP.LiquidityProvider.amount).sum ∧
    LP.distributeFees 10 provs =
      provs.map (fun p =>
        { p with earnedFees := p.earnedFees + 10 * p.amount / LP.totalLiquidity provs }) ∧
    (∀ fee2 ps2, fee2 = 10 → ps2 = provs →
      LP.feeCredits fee2 ps2 = LP.feeCredits 10 provs) :=
  distributeFees_pro_rata 10 provs (by simp [provs])

/-- C1 counterexample: on the two-asset basket with reserves (500, 500)
and a swap of 50, the engine credits `D_before - D_after = 1255/9` for its
own accumulating `computeD` (3000 before, 25745/9 after), whereas the
spec formula `D = Σ_i r_i * Π_j≠i (1 + r_i/r_j)` gives 2000 before,
17195/9 after and a difference of 805/9; the two disagree, so the code
does not compute the claimed sum-of-products invariant. -/
theorem basket_swap_specD_counterexample :
    BasketEngine.SwapCBDCs cexBasket 50 "alpha" "beta" "user1" =
      .ok ({ cexBasket with Reserves := [450, 5755 / 9] },
        [⟨"user1", BasketEngine.reserveWallet, 50⟩,
         ⟨BasketEngine.reserveWallet, "user1", 1255 / 9⟩],
        1255 / 9) ∧
    BasketEngine.specD [500, 500] - BasketEngine.specD [450, 500] = 805 / 9 ∧
    (1255 / 9 : ℚ) ≠ 805 / 9 := by
  have h1 : BasketEngine.jsIndexOf ["alpha", "beta"] "alpha" = 0 := by decide
  have h2 : BasketEngine.jsIndexOf ["alpha", "beta"] "beta" = 1 := by decide
  refine ⟨?_, ?_, by norm_num⟩
  · norm_num [BasketEngine.SwapCBDCs, cexBasket, h1, h2, BasketEngine.computeD,
      BasketEngine.dInner, List.range_succ]
  · norm_num [BasketEngine.specD, List.range_succ]

/-- C1 (amended): for a basket swap on assets found at indices `fi`, `ti`
with all reserves positive, the engine subtracts `amount` at `fi`,
computes `toAmount = D_before - D_after` where `D` is the accumulating
loop `computeD` (each step adds `r_i` to the running value and then
multiplies the whole running value by `Π_j≠i (1 + r_i/r_j)`, not the
spec's sum of per-asset products), credits `toAmount` at `ti` and
transfers `amount` from and `toAmount` to the user. -/
theorem basket_swap_delta (basket : BasketEngine.Basket) (amount : ℚ)
    (fromCBDC toCBDC user : String) (fi ti : ℕ)
    (hf : BasketEngine.jsIndexOf basket.Tokens fromCBDC = (fi : ℤ))
    (ht : BasketEngine.jsIndexOf basket.Tokens toCBDC = (ti : ℤ))
    (hpos : ∀ x ∈ basket.Reserves, 0 < x) :
    BasketEngine.SwapCBDCs basket amount fromCBDC toCBDC user =
      .ok ({ basket with
              Reserves := BasketEngine.swapReserves basket.Reserves fi ti amount },
        [⟨user, BasketEngine.reserveWallet, amount⟩,
         ⟨BasketEngine.reserveWallet, user,
           BasketEngine.swapToAmount basket.Reserves fi amount⟩],
        BasketEngine.swapToAmount basket.Reserves fi amount) := by
  simp only [BasketEngine.SwapCBDCs, hf, ht]
  rw [if_neg (by omega : ¬(((fi : ℕ) : ℤ) = -1 ∨ ((ti : ℕ) : ℤ) = -1))]
  simp only [Int.toNat_natCast, BasketEngine.swapReserves, BasketEngine.swapToAmount]

/-- C1 witness: the concrete basket swap of 50 from alpha to beta on
reserves (500, 500). -/
theorem basket_swap_delta_witness :
    BasketEngine.SwapCBDCs cexBasket 50 "alpha" "beta" "user1" =
      .ok ({ cexBasket with
              Reserves := BasketEngine.swapReserves cexBasket.Reserves 0 1 50 },
        [⟨"user1", BasketEngine.reserveWallet, 50⟩,
         ⟨BasketEngine.reserveWallet, "user1",
           BasketEngine.swapToAmount cexBasket.Reserves 0 50⟩],
        BasketEngine.swapToAmount cexBasket.Reserves 0 50) :=
  basket_swap_delta cexBasket 50 "alpha" "beta" "user1" 0 1 (by decide) (by decide)
    (by intro x hx
        simp only [cexBasket, List.mem_cons, List.not_mem_nil, or_false] at hx
        rcases hx with rfl | rfl <;> norm_num)

/-- C9 counterexample: with both prices present for asset `a` (change 1,
far above the threshold 1/20) and the previous price missing for asset
`b`, `CheckAssetVolatility` returns `false` instead of failing with
`OracleUnavailable`: the loop exits at the first volatile asset before
looking up the failing price. -/
theorem checkAssetVolatility_counterexample :
    Risk.CheckAssetVolatility (1 / 20) curPrices prevPrices ["a", "b"] = .ok false ∧
    prevPrices "b" = none := by
  refine ⟨?_, rfl⟩
  have h1 : curPrices "a" = some 2 := rfl
  have h2 : prevPrices "a" = some 1 := rfl
  simp only [Risk.CheckAssetVolatility, h1, h2]
  rw [if_pos (by norm_num)]

/-- C9 (amended): when both the current and previous oracle prices are
available for every asset (with positive previous prices),
`CheckAssetVolatility` never fails and returns `true` exactly when no
asset's relative change `|current - previous| / previous` exceeds the
threshold; a failed price lookup aborts the call only if it is reached
before the first volatile asset, since the scan returns `false` there
without consulting later assets. -/
theorem checkAssetVolatility_available (th : ℚ)
    (current previous : String → Option ℚ) (tokens : List String)
    (havail : ∀ t ∈ tokens, ∃ c p, current t = some c ∧ previous t = some p ∧ 0 < p) :
    (Risk.CheckAssetVolatility th current previous tokens = .ok true ↔
      ∀ t ∈ tokens, ∀ c p, current t = some c → previous t = some p →
        |c - p| / p ≤ th) ∧
    ∃ b, Risk.CheckAssetVolatility th current previous tokens = .ok b := by
  induction tokens with
  | nil => exact ⟨by simp [Risk.CheckAssetVolatility], ⟨true, rfl⟩⟩
  | cons t ts ih =>
    obtain ⟨c, p, hc, hp, hppos⟩ := havail t (List.mem_cons_self t ts)
    have ih' := ih fun u hu => havail u (List.mem_cons_of_mem t hu)
    have habs : |(c - p) / p| = |c - p| / p := by
      rw [abs_div, abs_of_pos hppos]
    by_cases hv : th < |c - p| / p
    · have hrun : Risk.CheckAssetVolatility th current previous (t :: ts) = .ok false := by
        simp only [Risk.CheckAssetVolatility, hc, hp]
        rw [if_pos (by rw [habs]; exact hv)]
      refine ⟨?_, ⟨false, hrun⟩⟩
      rw [hrun]
      constructor
      · intro h
        exact absurd h (by simp)
      · intro hall
        exact absurd (hall t (List.mem_cons_self t ts) c p hc hp) (not_le.mpr hv)
    · have hrun : Risk.CheckAssetVolatility th current previous (t :: ts) =
          Risk.CheckAssetVolatility th current previous ts := by
        simp only [Risk.CheckAssetVolatility, hc, hp]
        rw [if_neg (by rw [habs]; exact hv)]
      refine ⟨?_, ?_⟩
      · rw [hrun, ih'.1]
        constructor
        · intro hts u hu c2 p2 hc2 hp2
          rcases List.mem_cons.mp hu with h | h
          · subst h
            rw [hc] at hc2
            rw [hp] at hp2
            injection hc2 with e1
            injection hp2 with e2
            subst e1
            subst e2
            exact not_lt.mp hv
          · exact hts u h c2 p2 hc2 hp2
        · intro hall u hu c2 p2 hc2 hp2
          exact hall u (List.mem_cons_of_mem t hu) c2 p2 hc2 hp2
      · obtain ⟨b, hb⟩ := ih'.2
        exact ⟨b, by rw [hrun]; exact hb⟩

/-- C9 witness: threshold 1/10 over assets `a` (change 1/20) and `b`
(change 0) with all prices available. -/
theorem checkAssetVolatility_available_witness :
    (Risk.CheckAssetVolatility (1 / 10) curAll prevAll ["a", "b"] = .ok true ↔
      ∀ t ∈ (["a", "b"] : List String), ∀ c p, curAll t = some c → prevAll t = some p →
        |c - p| / p ≤ 1 / 10) ∧
    ∃ b, Risk.CheckAssetVolatility (1 / 10) curAll prevAll ["a", "b"] = .ok b :=
  checkAssetVolatility_available (1 / 10) curAll prevAll ["a", "b"]
    (by intro t ht
        rcases List.mem_cons.mp ht with h | h
        · subst h; exact ⟨21, 20, rfl, rfl, by norm_num⟩
        · rcases List.mem_cons.mp h with h2 | h2
          · subst h2; exact ⟨10, 10, rfl, rfl, by norm_num⟩
          · exact absurd h2 (by simp))

end MTFS
